import Mathlib

/-!
Verification of the whl-hub asset manager: a shallow embedding of the
`whl_hub` Python package (`meta.py`, `utils.py`, `model_operations.py`,
`map_operations.py`, `manager.py`) together with proofs about the claims
of the specification.

Modelling conventions:
* Filesystem paths are lists of components (`Path`); filesystem existence
  is a function `FSX : Path → Bool`.  `rmtree`, `mkdirP` and `move`
  mirror the corresponding `shutil` / `pathlib` effects on existence.
* Effectful primitives (network, archive opening, terminal input) are
  modelled as oracle arguments: a download oracle `String → Option String`,
  an `ArchiveResult` describing what `zipfile` finds inside the archive,
  and an answer stream `Nat → String` for `input()`.
* YAML documents are association lists `Doc` over string keys and values,
  modelling the (string-valued) dictionaries the code manipulates.
  Python dictionaries have unique keys; lookups and key assignment below
  consistently use the first binding, which coincides with `dict`
  behaviour on the duplicate-free lists the code actually produces.
-/

namespace WhlHub

/-- A filesystem path, as its list of components (`Path("/a/b")` is
`["a", "b"]`). -/
abbrev Path := List String

/-- Existence of filesystem paths: `fs p = true` means the file or
directory `p` exists. -/
abbrev FSX := Path → Bool

/-- `isPfx p q` : `p` is an ancestor of (or equal to) `q`, i.e. the
component list `p` is a list-prefix of `q`. -/
def isPfx : Path → Path → Bool
  | [], _ => true
  | _ :: _, [] => false
  | a :: as, b :: bs => if a = b then isPfx as bs else false

@[simp] theorem isPfx_nil (l : Path) : isPfx [] l = true := rfl

@[simp] theorem isPfx_cons_nil (a : String) (as : Path) :
    isPfx (a :: as) [] = false := rfl

theorem isPfx_cons (a b : String) (as bs : Path) :
    isPfx (a :: as) (b :: bs) = if a = b then isPfx as bs else false := rfl

@[simp] theorem isPfx_refl (l : Path) : isPfx l l = true := by
  induction l with
  | nil => rfl
  | cons a as ih => simp [isPfx, ih]

@[simp] theorem isPfx_append (l m : Path) : isPfx l (l ++ m) = true := by
  induction l with
  | nil => rfl
  | cons a as ih => simp [isPfx, ih]

theorem isPfx_head_ne {a b : String} (h : a ≠ b) (as bs : Path) :
    isPfx (a :: as) (b :: bs) = false := by
  simp [isPfx, h]

theorem isPfx_append_left_iff (l m : Path) :
    isPfx (l ++ m) l = true ↔ m = [] := by
  induction l with
  | nil =>
    cases m with
    | nil => simp
    | cons b bs => simp [isPfx]
  | cons a as ih => simpa [isPfx] using ih

theorem isPfx_antisymm :
    ∀ {p q : Path}, isPfx p q = true → isPfx q p = true → p = q := by
  intro p
  induction p with
  | nil =>
    intro q _ hq
    cases q with
    | nil => rfl
    | cons b bs => simp [isPfx] at hq
  | cons a as ih =>
    intro q hp hq
    cases q with
    | nil => simp [isPfx] at hp
    | cons b bs =>
      by_cases hab : a = b
      · subst hab
        simp [isPfx] at hp hq
        exact congrArg (a :: ·) (ih hp hq)
      · simp [isPfx, hab] at hp

/-! ### Filesystem effects (`shutil` / `pathlib` on the existence map) -/

/-- `shutil.rmtree(p)`: the whole subtree rooted at `p` stops existing. -/
def rmtree (p : Path) (fs : FSX) : FSX :=
  fun q => if isPfx p q then false else fs q

/-- `p.mkdir(parents=True, exist_ok=True)`: `p` and all its ancestors
exist afterwards. -/
def mkdirP (p : Path) (fs : FSX) : FSX :=
  fun q => if isPfx q p then true else fs q

/-- Creation of the file `p` along with any missing parent directories
(as `zipfile.ZipFile.extractall` does for each archive member). -/
def createAt (p : Path) (fs : FSX) : FSX :=
  fun q => if isPfx q p then true else fs q

/-- `shutil.move(src, dst)` when `dst` does not exist: the subtree at
`src` is renamed to `dst`. -/
def move (src dst : Path) (fs : FSX) : FSX :=
  fun q =>
    if isPfx src q then false
    else if isPfx dst q then fs (src ++ q.drop dst.length)
    else fs q

@[simp] theorem rmtree_apply (p : Path) (fs : FSX) (q : Path) :
    rmtree p fs q = if isPfx p q then false else fs q := rfl

@[simp] theorem mkdirP_apply (p : Path) (fs : FSX) (q : Path) :
    mkdirP p fs q = if isPfx q p then true else fs q := rfl

@[simp] theorem createAt_apply (p : Path) (fs : FSX) (q : Path) :
    createAt p fs q = if isPfx q p then true else fs q := rfl

/-- Well-formed filesystem: if a path exists, so do all its ancestors. -/
def wfFS (fs : FSX) : Prop :=
  ∀ p q : Path, isPfx p q = true → fs q = true → fs p = true

/-! ### YAML documents as association lists -/

/-- A parsed YAML mapping: association list of string keys to string
values (insertion-ordered, like a Python `dict`). -/
abbrev Doc := List (String × String)

/-- `d.get(k)` on a Python dict: value of the first binding of `k`. -/
def lookupA {α : Type} (d : List (String × α)) (k : String) : Option α :=
  (d.find? (fun p => p.1 == k)).map (·.2)

/-- `d[k] = v` on a Python dict: replace the value in place if the key is
present (keeping its position), otherwise append the new binding. -/
def setKeyA {α : Type} (d : List (String × α)) (k : String) (v : α) :
    List (String × α) :=
  if d.any (fun p => p.1 == k) then
    d.map (fun p => if p.1 == k then (k, v) else p)
  else d ++ [(k, v)]

/-- `del d[k]` on a Python dict (keys are unique, so filtering the key
out removes exactly that binding). -/
def eraseA {α : Type} (d : List (String × α)) (k : String) :
    List (String × α) :=
  d.filter (fun p => !(p.1 == k))

theorem lookupA_nil {α : Type} (k : String) :
    lookupA ([] : List (String × α)) k = none := rfl

theorem lookupA_cons {α : Type} (p : String × α) (d : List (String × α))
    (k : String) :
    lookupA (p :: d) k = if p.1 == k then some p.2 else lookupA d k := by
  simp only [lookupA, List.find?]
  cases h : (p.1 == k) <;> simp [h]

theorem lookupA_map_replace {α : Type} (d : List (String × α))
    (k k' : String) (v : α) (h : k' ≠ k) :
    lookupA (d.map fun p => if p.1 == k then (k, v) else p) k'
      = lookupA d k' := by
  induction d with
  | nil => rfl
  | cons p d ih =>
    rw [List.map_cons, lookupA_cons, lookupA_cons]
    by_cases hpk : p.1 = k
    · have h1 : (p.1 == k) = true := beq_iff_eq.mpr hpk
      have h2 : (k == k') = false := beq_eq_false_iff_ne.mpr (Ne.symm h)
      have h3 : (p.1 == k') = false := by
        refine beq_eq_false_iff_ne.mpr ?_
        rw [hpk]; exact Ne.symm h
      rw [h1, if_pos rfl]
      simp only [h2, h3, if_neg Bool.false_ne_true, ih]
    · have h1 : (p.1 == k) = false := beq_eq_false_iff_ne.mpr hpk
      rw [h1, if_neg Bool.false_ne_true]
      cases h3 : (p.1 == k') with
      | true => rw [if_pos rfl, if_pos rfl]
      | false =>
        rw [if_neg Bool.false_ne_true, if_neg Bool.false_ne_true]
        exact ih

theorem lookupA_map_replace_found {α : Type} (d : List (String × α))
    (k : String) (v : α) (h : d.any (fun p => p.1 == k) = true) :
    lookupA (d.map fun p => if p.1 == k then (k, v) else p) k = some v := by
  induction d with
  | nil => simp at h
  | cons p d ih =>
    rw [List.map_cons, lookupA_cons]
    by_cases hpk : p.1 = k
    · have h1 : (p.1 == k) = true := beq_iff_eq.mpr hpk
      simp [h1]
    · have h1 : (p.1 == k) = false := beq_eq_false_iff_ne.mpr hpk
      simp only [List.any_cons, h1, Bool.false_or] at h
      simp only [h1, if_neg Bool.false_ne_true]
      exact ih h

theorem lookupA_append_single {α : Type} (d : List (String × α))
    (k k' : String) (v : α) (h : k' ≠ k) :
    lookupA (d ++ [(k, v)]) k' = lookupA d k' := by
  induction d with
  | nil =>
    have h2 : (k == k') = false := beq_eq_false_iff_ne.mpr (Ne.symm h)
    simp [lookupA_cons, h2, lookupA_nil]
  | cons p d ih =>
    rw [List.cons_append, lookupA_cons, lookupA_cons]
    cases h1 : (p.1 == k') with
    | true => rw [if_pos rfl, if_pos rfl]
    | false =>
      rw [if_neg Bool.false_ne_true, if_neg Bool.false_ne_true]
      exact ih

theorem lookupA_append_single_self {α : Type} (d : List (String × α))
    (k : String) (v : α) (h : d.any (fun p => p.1 == k) = false) :
    lookupA (d ++ [(k, v)]) k = some v := by
  induction d with
  | nil => simp [lookupA_cons]
  | cons p d ih =>
    simp only [List.any_cons, Bool.or_eq_false_iff] at h
    rw [List.cons_append, lookupA_cons, h.1, if_neg Bool.false_ne_true]
    exact ih h.2

theorem lookupA_setKeyA_self {α : Type} (d : List (String × α))
    (k : String) (v : α) : lookupA (setKeyA d k v) k = some v := by
  unfold setKeyA
  cases hmem : d.any (fun p => p.1 == k) with
  | true =>
    rw [if_pos rfl]
    exact lookupA_map_replace_found d k v hmem
  | false =>
    rw [if_neg Bool.false_ne_true]
    exact lookupA_append_single_self d k v hmem

theorem lookupA_setKeyA_ne {α : Type} (d : List (String × α))
    (k k' : String) (v : α) (h : k' ≠ k) :
    lookupA (setKeyA d k v) k' = lookupA d k' := by
  unfold setKeyA
  cases hmem : d.any (fun p => p.1 == k) with
  | true =>
    rw [if_pos rfl]
    exact lookupA_map_replace d k k' v h
  | false =>
    rw [if_neg Bool.false_ne_true]
    exact lookupA_append_single d k k' v h

/-! ### Path / string interconversion -/

/-- `str(path)` for an absolute `pathlib.Path`: slash-joined components
with a leading slash. -/
def renderPath (p : Path) : String :=
  p.foldl (fun acc c => acc ++ "/" ++ c) ""

/-- `pathlib.Path(s)` for an absolute path string: its non-empty
slash-separated components. -/
def pathOfString (s : String) : Path :=
  (s.splitOn "/").filter (fun c => !(c == ""))

/-- Python `str.startswith`, computed on the underlying character
list. -/
def pyStartswith (s pre : String) : Bool := pre.data.isPrefixOf s.data

/-- Python `str.lower`. -/
def pyLower (s : String) : String := ⟨s.data.map Char.toLower⟩

/-- Python `str.strip`: whitespace removed from both ends. -/
def pyStrip (s : String) : String :=
  ⟨((s.data.dropWhile Char.isWhitespace).reverse.dropWhile
    Char.isWhitespace).reverse⟩

/-- Python `str.format` for a template with a single positional
`\x7b\x7d` slot. -/
def pyFormat (tmpl arg : String) : String := ⟨go tmpl.data arg.data⟩
where
  go : List Char → List Char → List Char
    | [], _ => []
    | '\x7b' :: '\x7d' :: rest, ins => ins ++ rest
    | c :: rest, ins => c :: go rest ins

/-! ### `utils.user_confirmation` -/

/-- One confirmation attempt of `user_confirmation`'s `for _ in range(3)`
loop, reading answers from the `input()` stream `ans` starting at index
`i` with `fuel` attempts left; falls through to `False` ("operation
aborted") when the attempts are exhausted. -/
def confirmAttempts (ans : Nat → String) : Nat → Nat → Bool
  | _, 0 => false
  | i, fuel + 1 =>
    let s := pyStrip (pyLower (ans i))
    if s == "yes" || s == "y" then true
    else if s == "no" || s == "n" then false
    else confirmAttempts ans (i + 1) fuel

/-- `utils.user_confirmation`: up to three attempts to read a yes/no
answer; anything else (including running out of attempts) counts as a
refusal. -/
def user_confirmation (ans : Nat → String) : Bool :=
  confirmAttempts ans 0 3

/-! ### `meta.py`: `BaseMeta.parse_from`, `BaseMeta.to_dict` and the
field tables of `ModelMeta` / `MapMeta` -/

/-- `BaseMeta.parse_from` on an already-decoded YAML document.
`content = none` models an unreadable file or a document whose top level
is not a mapping (both are reported as failure by the code); otherwise
the method fails exactly when a required field is missing, and on
success stores the document unchanged as `_raw_meta` (the dynamic
`setattr` loop never fails). -/
def parse_from (required : List String) (content : Option Doc) :
    Option Doc :=
  match content with
  | none => none
  | some d =>
    if required.all (fun k => (lookupA d k).isSome) then some d else none

/-- `BaseMeta.to_dict`: a copy of `_raw_meta` with `data['type']` set to
the class's `_meta_type`. -/
def to_dict (raw : Doc) (metaType : String) : Doc :=
  setKeyA raw "type" metaType

/-- The value of the instance attribute that `parse_from`'s
`setattr(self, key, self._raw_meta.get(key, default_value))` loop leaves
on the metadata object: the raw value when the key is present, otherwise
the declared default from `_OPTIONAL_FIELDS` (or none, modelling
Python's `None`). -/
def attrValue (optional : List (String × Option String)) (raw : Doc)
    (k : String) : Option String :=
  match lookupA raw k with
  | some v => some v
  | none => ((lookupA optional k).getD none)

/-- `ModelMeta._REQUIRED_FIELDS`. -/
def requiredModel : List String :=
  ["name", "date", "task_type", "framework", "model"]

/-- `ModelMeta._OPTIONAL_FIELDS`. -/
def optionalModel : List (String × Option String) :=
  [("version", some "1.0.0"), ("sensor_type", none), ("dataset", none)]

/-- `MapMeta._REQUIRED_FIELDS`. -/
def requiredMap : List String :=
  ["name", "date", "region", "district"]

/-- `MapMeta._OPTIONAL_FIELDS` (inherited from `BaseMeta`). -/
def optionalMap : List (String × Option String) :=
  [("version", some "1.0.0")]

/-- The record returned by a successful `install` run (stage 6 of both
`model_operations.install` and `map_operations.install`):
`metadata = meta.to_dict(); metadata['install_path'] = str(install_path)`. -/
def mkRecord (raw : Doc) (metaType : String) (installPathStr : String) :
    Doc :=
  setKeyA (to_dict raw metaType) "install_path" installPathStr

/-! ### `utils.resolve_asset_path`

The download primitive is an oracle `net : String → Option String`
returning the local file the URL was saved to (`none` models both a
`None` return and an exception raised by `download_from_url`; the code
treats the two identically in both branches that call it).  Local-file
queries go through `fsEx` (`Path.exists`) and `fsFile` (`Path.is_file`).
The second component of the result records, in order, the URLs for which
a download was attempted. -/

/-- `utils.resolve_asset_path`.  `tmpl = none` models a configuration
without `cdn_url_template` (or with an empty/falsy one); the template is
instantiated with `str.format`, i.e. the `\x7b\x7d` slot is replaced by
the reference. -/
def resolve_asset_path (pathOrName : String) (tmpl : Option String)
    (net : String → Option String) (fsEx fsFile : String → Bool) :
    Option String × List String :=
  if pyStartswith pathOrName "http://" || pyStartswith pathOrName "https://" then
    -- Priority 1: a full URL; any failure here is terminal.
    match net pathOrName with
    | some p => if fsEx p then (some p, [pathOrName]) else (none, [pathOrName])
    | none => (none, [pathOrName])
  else
    -- Priority 2: only when the reference is not an existing local path.
    let step2 : Option String × List String :=
      if fsEx pathOrName = false then
        match tmpl with
        | some t =>
          let url := pyFormat t pathOrName
          match net url with
          | some p => if fsEx p then (some p, [url]) else (none, [url])
          | none => (none, [url])
        | none => (none, [])
      else (none, [])
    match step2 with
    | (some p, log) => (some p, log)
    | (none, log) =>
      -- Priority 3: an existing regular file.
      if fsEx pathOrName && fsFile pathOrName then (some pathOrName, log)
      else (none, log)

/-! ### `utils.download_from_url`

The server is an oracle from the request's `Range` start (`none` = no
`Range` header) to a response.  The local download directory holds at
most the one file derived from the URL; its state is `Option (List Nat)`
(the byte content), and the third result component logs the `Range`
start of every request issued. -/

/-- An HTTP response as the code distinguishes them: status 416, any
other status with a body (`is206` tells whether the status is exactly
206, the only case written in append mode), or a request/status error
(`requests` exception or `raise_for_status`). -/
inductive HResp
  | s416
  | okResp (is206 : Bool) (body : List Nat)
  | errResp
deriving DecidableEq

/-- Result of `download_from_url`: the returned local file's content,
`failed` for a `None` return, or `raised` for the one branch
(`416` with no pre-existing local file) whose `local_file.unlink()`
raises an uncaught `FileNotFoundError`. -/
inductive DLRet
  | file (content : List Nat)
  | failed
  | raised
deriving DecidableEq

/-- `utils.download_from_url`, returning
(result, final local-file state, request log). -/
def download_from_url (localFile : Option (List Nat))
    (resp : Option Nat → HResp) :
    DLRet × Option (List Nat) × List (Option Nat) :=
  match localFile with
  | some c =>
    -- the file exists: a resume is attempted from the current size
    match resp (some c.length) with
    | .s416 =>
      -- 416: delete the partial file and restart from scratch, once
      match resp none with
      | .okResp _ body => (.file body, some body, [some c.length, none])
      | .s416 => (.failed, none, [some c.length, none])
      | .errResp => (.failed, none, [some c.length, none])
    | .okResp is206 body =>
      if is206 then (.file (c ++ body), some (c ++ body), [some c.length])
      else (.file body, some body, [some c.length])
    | .errResp =>
      -- `Range` was in the resume header, so the partial file is kept
      (.failed, some c, [some c.length])
  | none =>
    match resp none with
    | .okResp _ body => (.file body, some body, [none])
    | .s416 =>
      -- `local_file.unlink()` on a file that does not exist
      (.raised, none, [none])
    | .errResp => (.failed, none, [none])

/-! ### `utils.unzip_file`

Opening the archive is an oracle `ArchiveResult`: the zip file may be
missing (`FileNotFoundError`), corrupt (`BadZipFile`, with whatever
entries `extractall` managed to produce before failing — possibly none),
or readable with the given entries.  Each entry is its path relative to
the extraction directory together with the decoded YAML mapping of the
file (`none` for files that are not well-formed flat YAML mappings). -/

/-- What `zipfile` finds inside the archive. -/
inductive ArchiveResult
  | notFound
  | corrupt (entries : List (Path × Option Doc))
  | okArch (entries : List (Path × Option Doc))

/-- Extraction of the entries into `dest`, creating parent directories
as `extractall` does. -/
def addFiles (dest : Path) (entries : List (Path × Option Doc))
    (fs : FSX) : FSX :=
  entries.foldl (fun f e => createAt (dest ++ e.1) f) fs

/-- `utils.unzip_file`: destroy and recreate `extractTo`, then extract;
on `BadZipFile` / `FileNotFoundError` return `none` — the directory is
*not* removed. -/
def unzip_file (_zipPath : Path) (extractTo : Path) (ar : ArchiveResult)
    (fs : FSX) : Option Path × FSX :=
  let fs1 := if fs extractTo then rmtree extractTo fs else fs
  let fs2 := mkdirP extractTo fs1
  match ar with
  | .notFound => (none, fs2)
  | .corrupt entries => (none, addFiles extractTo entries fs2)
  | .okArch entries => (some extractTo, addFiles extractTo entries fs2)

theorem addFiles_true (dest : Path) (entries : List (Path × Option Doc))
    (fs : FSX) (q : Path) (h : fs q = true) :
    addFiles dest entries fs q = true := by
  induction entries generalizing fs with
  | nil => exact h
  | cons e entries ih =>
    refine ih (createAt (dest ++ e.1) fs) ?_
    simp only [createAt_apply]
    cases hpq : isPfx q (dest ++ e.1) <;> simp [h]

theorem addFiles_not_created (dest : Path)
    (entries : List (Path × Option Doc)) (fs : FSX) (q : Path)
    (h : ∀ e ∈ entries, isPfx q (dest ++ e.1) = false) :
    addFiles dest entries fs q = fs q := by
  induction entries generalizing fs with
  | nil => rfl
  | cons e entries ih =>
    have he := h e (List.mem_cons_self e entries)
    have ht : ∀ e' ∈ entries, isPfx q (dest ++ e'.1) = false :=
      fun e' he' => h e' (List.mem_cons_of_mem e he')
    calc addFiles dest entries (createAt (dest ++ e.1) fs) q
        = createAt (dest ++ e.1) fs q := ih _ ht
      _ = fs q := by simp [createAt, he]

/-- After `unzip_file`, the extraction directory always exists —
also on every failure path. -/
theorem unzip_dest_true (zipPath extractTo : Path) (ar : ArchiveResult)
    (fs : FSX) : (unzip_file zipPath extractTo ar fs).2 extractTo = true := by
  have hmk : mkdirP extractTo
      (if fs extractTo then rmtree extractTo fs else fs) extractTo = true := by
    simp [mkdirP]
  cases ar with
  | notFound => simp [unzip_file, mkdirP]
  | corrupt entries =>
    simpa [unzip_file] using addFiles_true extractTo entries _ extractTo hmk
  | okArch entries =>
    simpa [unzip_file] using addFiles_true extractTo entries _ extractTo hmk

/-! ### The installation pipelines
(`model_operations.install`, `map_operations.install`)

`install` is a function of the caller-supplied arguments
(`path_or_name`, `skip_if_exists`), an environment of oracles for its
effectful stages, and the filesystem existence map.  The oracles are the
outcome of `resolve_asset_path` (stage 1 — its internal behaviour is
embedded and verified separately above), the archive contents seen by
`unzip_file` (stage 2), and the `input()` stream.  `shutil.move` may
raise (`moveRaises`); the exception escapes `install` after the
`finally` block, which is modelled by the `raised` outcome. -/

/-- Oracles for one `install` run. -/
structure InstallEnv where
  /-- outcome of `resolve_asset_path(path_or_name, config)` -/
  resolveResult : Option Path
  /-- what `zipfile` finds inside the resolved archive -/
  archive : ArchiveResult
  /-- the `input()` stream -/
  answers : Nat → String
  /-- whether `shutil.move` raises `OSError` -/
  moveRaises : Bool

/-- How control returns from `install` to its caller: an uncaught
exception, or a returned value (`none` = Python `None`,
`some record` = the metadata dictionary). -/
inductive InstallOutcome
  | raised
  | returned (record : Option Doc)
deriving DecidableEq

/-- The temp-directory management before the `try` block: clear the
directory if it already exists, then `mkdir(parents=True)`. -/
def prologue (tmpDir : Path) (fs : FSX) : FSX :=
  mkdirP tmpDir (if fs tmpDir then rmtree tmpDir fs else fs)

/-- The `finally` block: remove the temp directory if it (still)
exists. -/
def cleanup (tmpDir : Path) (fs : FSX) : FSX :=
  if fs tmpDir then rmtree tmpDir fs else fs

/-- Stages 5 and 6, shared verbatim by both `install` functions:
move the extracted content into place and build the returned metadata
dictionary. -/
def finishInstall (raw : Doc) (metaType : String)
    (contentPath installPath : Path) (env : InstallEnv) (fs : FSX) :
    InstallOutcome × FSX :=
  if env.moveRaises then (.raised, fs)
  else
    (.returned (some (mkRecord raw metaType (renderPath installPath))),
      move contentPath installPath fs)

namespace model_operations

/-- `AssetConfig.unzip_tmp_dir` (model kind). -/
def unzip_tmp_dir : Path := ["tmp", "whl_hub_model_extract"]

/-- `AssetConfig.model_install_root` with the default workspace
`/apollo`. -/
def model_install_root : Path :=
  ["apollo", "modules", "perception", "data", "models"]

/-- `AssetConfig.model_meta_filename`. -/
def model_meta_filename : String := "apollo_deploy"

/-- `AssetConfig.framework_abbreviation.get(fw, 'unknown')`. -/
def framework_abbreviation (fw : String) : String :=
  if fw = "Caffe" then "caffe"
  else if fw = "PaddlePaddle" then "paddle"
  else if fw = "PyTorch" then "torch"
  else if fw = "TensorFlow" then "tf"
  else if fw = "Onnx" then "onnx"
  else "unknown"

/-- `AssetConfig.get_install_path`, as a function of the metadata's
`name` and `framework` attributes. -/
def get_install_path (nm fw : String) : Path :=
  model_install_root ++ [nm ++ "_" ++ framework_abbreviation fw]

/-- `AssetConfig.find_meta_file`: `rglob` for
`apollo_deploy.yaml` anywhere below the extraction directory (list
order models directory-walk order), then `apollo_deploy.yml`; the first
hit wins.  Entries are relative to the extraction directory. -/
def find_meta_file (entries : List (Path × Option Doc)) :
    Option (Path × Option Doc) :=
  match entries.filter
      (fun e => e.1.getLast? == some (model_meta_filename ++ ".yaml")) with
  | e :: _ => some e
  | [] =>
    match entries.filter
        (fun e => e.1.getLast? == some (model_meta_filename ++ ".yml")) with
    | e :: _ => some e
    | [] => none

/-- The `try` block of `model_operations.install` (stages 1–6). -/
def installCore (skipIfExists : Bool) (env : InstallEnv) (fs : FSX) :
    InstallOutcome × FSX :=
  match env.resolveResult with
  | none => (.returned none, fs)
  | some archivePath =>
    let fs1 := (unzip_file archivePath unzip_tmp_dir env.archive fs).2
    match env.archive with
    | .notFound => (.returned none, fs1)
    | .corrupt _ => (.returned none, fs1)
    | .okArch entries =>
      match find_meta_file entries with
      | none => (.returned none, fs1)
      | some metaEntry =>
        match parse_from requiredModel metaEntry.2 with
        | none => (.returned none, fs1)
        | some raw =>
          let contentPath := unzip_tmp_dir ++ metaEntry.1.dropLast
          let nm := (attrValue optionalModel raw "name").getD ""
          let fw := (attrValue optionalModel raw "framework").getD ""
          let installPath := get_install_path nm fw
          if fs1 installPath then
            if skipIfExists then (.returned none, fs1)
            else if user_confirmation env.answers then
              finishInstall raw "model" contentPath installPath env
                (rmtree installPath fs1)
            else (.returned none, fs1)
          else finishInstall raw "model" contentPath installPath env fs1

/-- `model_operations.install`: temp-directory prologue, the staged
`try` body, and the unconditional `finally` cleanup. -/
def install (_pathOrName : String) (skipIfExists : Bool)
    (env : InstallEnv) (fs : FSX) : InstallOutcome × FSX :=
  let fs0 := prologue unzip_tmp_dir fs
  let r := installCore skipIfExists env fs0
  (r.1, cleanup unzip_tmp_dir r.2)

/-- `model_operations.remove`: `rmtreeOk = false` models the `OSError`
branch. -/
def remove (_assetName : String) (metadata : Doc) (ans : Nat → String)
    (rmtreeOk : Bool) (fs : FSX) : Bool × FSX :=
  match lookupA metadata "install_path" with
  | none => (false, fs)
  | some s =>
    if s = "" then (false, fs)
    else
      let p := pathOfString s
      if fs p = false then (true, fs)
      else if user_confirmation ans = false then (false, fs)
      else if rmtreeOk then (true, rmtree p fs) else (false, fs)

end model_operations

namespace map_operations

/-- `AssetConfig.unzip_tmp_dir` (map kind). -/
def unzip_tmp_dir : Path := ["tmp", "whl_hub_map_extract"]

/-- `AssetConfig.map_install_root` with the default workspace
`/apollo`. -/
def map_install_root : Path := ["apollo", "modules", "map", "data"]

/-- `AssetConfig.map_meta_filename`. -/
def map_meta_filename : String := "meta"

/-- `AssetConfig.get_install_path`, as a function of the metadata's
`name` attribute. -/
def get_install_path (nm : String) : Path := map_install_root ++ [nm]

/-- `AssetConfig.find_meta_file` for maps: look for the immediate
subdirectory named after the map (falling back to "the one subdirectory
present"), then for `meta.yaml` / `meta.yml` directly inside it.
A subdirectory of the extraction root is visible in the entry list as
the head component of any entry of length ≥ 2. -/
def find_meta_file (entries : List (Path × Option Doc))
    (mapName : String) : Option (Path × Option Doc) :=
  let isSubdir : String → Bool := fun d =>
    entries.any (fun e => e.1.head? == some d && decide (2 ≤ e.1.length))
  let contentDir : Option String :=
    if isSubdir mapName then some mapName
    else
      let subdirs :=
        (entries.filterMap
          (fun e => if 2 ≤ e.1.length then e.1.head? else none)).dedup
      match subdirs with
      | [d] => some d
      | _ => none
  match contentDir with
  | none => none
  | some d =>
    match entries.find?
        (fun e => e.1 == [d, map_meta_filename ++ ".yaml"]) with
    | some e => some e
    | none =>
      entries.find? (fun e => e.1 == [d, map_meta_filename ++ ".yml"])

/-- The `try` block of `map_operations.install` (stages 1–6), including
the extra `if not map_meta.name` guard. -/
def installCore (pathOrName : String) (skipIfExists : Bool)
    (env : InstallEnv) (fs : FSX) : InstallOutcome × FSX :=
  match env.resolveResult with
  | none => (.returned none, fs)
  | some archivePath =>
    let fs1 := (unzip_file archivePath unzip_tmp_dir env.archive fs).2
    match env.archive with
    | .notFound => (.returned none, fs1)
    | .corrupt _ => (.returned none, fs1)
    | .okArch entries =>
      match find_meta_file entries pathOrName with
      | none => (.returned none, fs1)
      | some metaEntry =>
        match parse_from requiredMap metaEntry.2 with
        | none => (.returned none, fs1)
        | some raw =>
          let nm := (attrValue optionalMap raw "name").getD ""
          if nm = "" then (.returned none, fs1)
          else
            let contentPath := unzip_tmp_dir ++ metaEntry.1.dropLast
            let installPath := get_install_path nm
            if fs1 installPath then
              if skipIfExists then (.returned none, fs1)
              else if user_confirmation env.answers then
                finishInstall raw "map" contentPath installPath env
                  (rmtree installPath fs1)
              else (.returned none, fs1)
            else finishInstall raw "map" contentPath installPath env fs1

/-- `map_operations.install`. -/
def install (pathOrName : String) (skipIfExists : Bool)
    (env : InstallEnv) (fs : FSX) : InstallOutcome × FSX :=
  let fs0 := prologue unzip_tmp_dir fs
  let r := installCore pathOrName skipIfExists env fs0
  (r.1, cleanup unzip_tmp_dir r.2)

/-- `map_operations.remove` (same logic as the model variant). -/
def remove (_assetName : String) (metadata : Doc) (ans : Nat → String)
    (rmtreeOk : Bool) (fs : FSX) : Bool × FSX :=
  match lookupA metadata "install_path" with
  | none => (false, fs)
  | some s =>
    if s = "" then (false, fs)
    else
      let p := pathOfString s
      if fs p = false then (true, fs)
      else if user_confirmation ans = false then (false, fs)
      else if rmtreeOk then (true, rmtree p fs) else (false, fs)

end map_operations

/-! ### `manager.AssetManager` -/

/-- The registry: asset name → persisted metadata record, insertion
ordered like the JSON object it is decoded from. -/
abbrev Registry := List (String × Doc)

/-- State of the registry backing file at process start. -/
inductive RegFile
  | absent
  | corrupt
  | parsable (r : Registry)

/-- Result of `AssetManager.__init__`: the in-memory registry together
with what (if anything) was written back to disk, or immediate process
termination (`exit(1)`). -/
inductive LoadResult
  | loaded (registry : Registry) (persisted : Option Registry)
  | fatalExit
deriving DecidableEq

namespace AssetManager

/-- `AssetManager.__init__`: absent file → start from an empty mapping
and persist it; unparsable file (`json.JSONDecodeError`) → `exit(1)`;
parsable file → use its contents (nothing is rewritten). -/
def load : RegFile → LoadResult
  | .absent => .loaded [] (some [])
  | .corrupt => .fatalExit
  | .parsable r => .loaded r none

/-- The tail of `AssetManager.install` after the type dispatch: persist
the record iff the returned metadata is a truthy dict with a truthy
`name`.  Returns (registry, whether `_save_registry` ran, outcome,
filesystem). -/
def handleInstall (reg : Registry) (r : InstallOutcome × FSX) :
    Registry × Bool × InstallOutcome × FSX :=
  match r.1 with
  | .raised => (reg, false, .raised, r.2)
  | .returned none => (reg, false, .returned none, r.2)
  | .returned (some md) =>
    if !md.isEmpty && !((lookupA md "name").getD "" == "") then
      (setKeyA reg ((lookupA md "name").getD "") md, true,
        .returned (some md), r.2)
    else (reg, false, .returned (some md), r.2)

/-- `AssetManager.install`: dispatch on the asset type, then update and
persist the registry only when a record came back. -/
def install (pathOrName assetType : String) (skip : Bool)
    (env : InstallEnv) (fs : FSX) (reg : Registry) :
    Registry × Bool × InstallOutcome × FSX :=
  if assetType = "model" then
    handleInstall reg (model_operations.install pathOrName skip env fs)
  else if assetType = "map" then
    handleInstall reg (map_operations.install pathOrName skip env fs)
  else (reg, false, .returned none, fs)

/-- `AssetManager.remove`: look the asset up, dispatch on its recorded
`type`, and delete + persist the registry entry exactly when the
kind-specific remove reported success.  Returns (registry, whether
`_save_registry` ran, filesystem). -/
def remove (assetName : String) (reg : Registry) (ans : Nat → String)
    (rmtreeOk : Bool) (fs : FSX) : Registry × Bool × FSX :=
  match lookupA reg assetName with
  | none => (reg, false, fs)
  | some md =>
    let t := (lookupA md "type").getD ""
    if t = "model" then
      let r := model_operations.remove assetName md ans rmtreeOk fs
      if r.1 then (eraseA reg assetName, true, r.2) else (reg, false, r.2)
    else if t = "map" then
      let r := map_operations.remove assetName md ans rmtreeOk fs
      if r.1 then (eraseA reg assetName, true, r.2) else (reg, false, r.2)
    else (reg, false, fs)

end AssetManager

/-! ### Support lemmas about the pipeline's filesystem handling -/

theorem isPfx_trans :
    ∀ {p q r : Path}, isPfx p q = true → isPfx q r = true →
      isPfx p r = true := by
  intro p
  induction p with
  | nil => intro q r _ _; rfl
  | cons a as ih =>
    intro q r hpq hqr
    cases q with
    | nil => simp at hpq
    | cons b bs =>
      cases r with
      | nil => simp at hqr
      | cons c cs =>
        by_cases hab : a = b
        · subst hab
          by_cases hbc : a = c
          · subst hbc
            simp only [isPfx, if_pos rfl] at hpq hqr ⊢
            exact ih hpq hqr
          · simp [isPfx, hbc] at hqr
        · simp [isPfx, hab] at hpq

theorem prologue_self (t : Path) (fs : FSX) : prologue t fs t = true := by
  simp [prologue, mkdirP]

/-- The pre-`try` clearing: after the prologue nothing strictly below
the temp directory exists (needs filesystem well-formedness only when
the temp directory was absent). -/
theorem prologue_clears (t : Path) (fs : FSX) (hwf : wfFS fs) (q : Path)
    (hq : isPfx t q = true) (hne : q ≠ t) : prologue t fs q = false := by
  have hqt : isPfx q t = false := by
    cases h : isPfx q t with
    | false => rfl
    | true => exact absurd (isPfx_antisymm hq h).symm hne
  unfold prologue
  rw [mkdirP_apply, hqt, if_neg Bool.false_ne_true]
  cases hft : fs t with
  | true => rw [if_pos rfl, rmtree_apply, hq, if_pos rfl]
  | false =>
    rw [if_neg Bool.false_ne_true]
    cases hfq : fs q with
    | false => rfl
    | true => exact absurd (hwf t q hq hfq) (by rw [hft]; exact Bool.false_ne_true)

theorem cleanup_sub (t : Path) (fs : FSX) (q : Path)
    (hq : isPfx t q = true) (h : fs t = false → fs q = false) :
    cleanup t fs q = false := by
  unfold cleanup
  cases hft : fs t with
  | true => rw [if_pos rfl, rmtree_apply, hq, if_pos rfl]
  | false => rw [if_neg Bool.false_ne_true]; exact h hft

theorem cleanup_true_sub (t : Path) (fs : FSX) (q : Path)
    (hq : isPfx t q = true) (h : fs t = true) : cleanup t fs q = false :=
  cleanup_sub t fs q hq
    (fun hf => absurd h (by rw [hf]; exact Bool.false_ne_true))

/-- `shutil.move` either leaves the temp directory in place or (when the
moved content *is* the temp directory) removes its whole subtree; in
both cases nothing below the temp directory survives it being gone. -/
theorem move_t_sub (cp ip : Path) (fsb : FSX) (t q : Path)
    (hq : isPfx t q = true) (hip : isPfx ip t = false)
    (hbt : fsb t = true) :
    move cp ip fsb t = false → move cp ip fsb q = false := by
  intro h
  unfold move at h ⊢
  cases hcpt : isPfx cp t with
  | true =>
    have hcpq : isPfx cp q = true := isPfx_trans hcpt hq
    rw [hcpq, if_pos rfl]
  | false =>
    rw [hcpt, if_neg Bool.false_ne_true, hip,
      if_neg Bool.false_ne_true, hbt] at h
    exact absurd h (by decide)

/-- The model install path never lies inside either temp directory (first
components `apollo` vs `tmp`). -/
theorem model_ip_not_pfx_tmp (x : String) :
    isPfx (model_operations.model_install_root ++ [x])
      model_operations.unzip_tmp_dir = false :=
  isPfx_head_ne (by decide) _ _

/-- The map install path never lies inside the map temp directory. -/
theorem map_ip_not_pfx_tmp (x : String) :
    isPfx (map_operations.map_install_root ++ [x])
      map_operations.unzip_tmp_dir = false :=
  isPfx_head_ne (by decide) _ _

theorem model_gip_not_pfx_tmp (nm fw : String) :
    isPfx (model_operations.get_install_path nm fw)
      model_operations.unzip_tmp_dir = false :=
  model_ip_not_pfx_tmp _

theorem map_gip_not_pfx_tmp (nm : String) :
    isPfx (map_operations.get_install_path nm)
      map_operations.unzip_tmp_dir = false :=
  map_ip_not_pfx_tmp _

/-- Stages 5–6 never leave anything below the model temp directory once
the `finally` cleanup has run. -/
theorem model_finish_sub (raw : Doc) (cp : Path) (nm fw : String)
    (env : InstallEnv) (fsX : FSX)
    (hXt : fsX model_operations.unzip_tmp_dir = true) (q : Path)
    (hq : isPfx model_operations.unzip_tmp_dir q = true) :
    cleanup model_operations.unzip_tmp_dir
      (finishInstall raw "model" cp (model_operations.get_install_path nm fw)
        env fsX).2 q = false := by
  unfold finishInstall
  cases hmv : env.moveRaises with
  | true => exact cleanup_true_sub _ _ _ hq hXt
  | false =>
    exact cleanup_sub _ _ _ hq
      (move_t_sub _ _ _ _ _ hq (model_gip_not_pfx_tmp nm fw) hXt)

theorem map_finish_sub (raw : Doc) (cp : Path) (nm : String)
    (env : InstallEnv) (fsX : FSX)
    (hXt : fsX map_operations.unzip_tmp_dir = true) (q : Path)
    (hq : isPfx map_operations.unzip_tmp_dir q = true) :
    cleanup map_operations.unzip_tmp_dir
      (finishInstall raw "map" cp (map_operations.get_install_path nm)
        env fsX).2 q = false := by
  unfold finishInstall
  cases hmv : env.moveRaises with
  | true => exact cleanup_true_sub _ _ _ hq hXt
  | false =>
    exact cleanup_sub _ _ _ hq
      (move_t_sub _ _ _ _ _ hq (map_gip_not_pfx_tmp nm) hXt)

/-- Whatever happens inside `model_operations.install`, nothing at or
below the model scratch directory exists once it returns. -/
theorem model_install_sub (pn : String) (skip : Bool) (env : InstallEnv)
    (fs : FSX) (q : Path)
    (hq : isPfx model_operations.unzip_tmp_dir q = true) :
    (model_operations.install pn skip env fs).2 q = false := by
  have h0 := prologue_self model_operations.unzip_tmp_dir fs
  unfold model_operations.install model_operations.installCore
  cases hres : env.resolveResult with
  | none => dsimp only; exact cleanup_true_sub _ _ _ hq h0
  | some a =>
    cases harch : env.archive with
    | notFound =>
      dsimp only
      exact cleanup_true_sub _ _ _ hq (unzip_dest_true _ _ _ _)
    | corrupt ents =>
      dsimp only
      exact cleanup_true_sub _ _ _ hq (unzip_dest_true _ _ _ _)
    | okArch ents =>
      have h1 := unzip_dest_true a model_operations.unzip_tmp_dir
        (ArchiveResult.okArch ents) (prologue model_operations.unzip_tmp_dir fs)
      dsimp only
      cases hfind : model_operations.find_meta_file ents with
      | none => dsimp only; exact cleanup_true_sub _ _ _ hq h1
      | some me =>
        dsimp only
        cases hparse : parse_from requiredModel me.2 with
        | none => dsimp only; exact cleanup_true_sub _ _ _ hq h1
        | some raw =>
          dsimp only
          split
          · split
            · exact cleanup_true_sub _ _ _ hq h1
            · split
              · refine model_finish_sub raw _ _ _ env _ ?_ q hq
                rw [rmtree_apply, model_gip_not_pfx_tmp,
                  if_neg Bool.false_ne_true]
                exact h1
              · exact cleanup_true_sub _ _ _ hq h1
          · exact model_finish_sub raw _ _ _ env _ h1 q hq

/-- Whatever happens inside `map_operations.install`, nothing at or
below the map scratch directory exists once it returns. -/
theorem map_install_sub (pn : String) (skip : Bool) (env : InstallEnv)
    (fs : FSX) (q : Path)
    (hq : isPfx map_operations.unzip_tmp_dir q = true) :
    (map_operations.install pn skip env fs).2 q = false := by
  have h0 := prologue_self map_operations.unzip_tmp_dir fs
  unfold map_operations.install map_operations.installCore
  cases hres : env.resolveResult with
  | none => dsimp only; exact cleanup_true_sub _ _ _ hq h0
  | some a =>
    cases harch : env.archive with
    | notFound =>
      dsimp only
      exact cleanup_true_sub _ _ _ hq (unzip_dest_true _ _ _ _)
    | corrupt ents =>
      dsimp only
      exact cleanup_true_sub _ _ _ hq (unzip_dest_true _ _ _ _)
    | okArch ents =>
      have h1 := unzip_dest_true a map_operations.unzip_tmp_dir
        (ArchiveResult.okArch ents) (prologue map_operations.unzip_tmp_dir fs)
      dsimp only
      cases hfind : map_operations.find_meta_file ents pn with
      | none => dsimp only; exact cleanup_true_sub _ _ _ hq h1
      | some me =>
        dsimp only
        cases hparse : parse_from requiredMap me.2 with
        | none => dsimp only; exact cleanup_true_sub _ _ _ hq h1
        | some raw =>
          dsimp only
          split
          · exact cleanup_true_sub _ _ _ hq h1
          · split
            · split
              · exact cleanup_true_sub _ _ _ hq h1
              · split
                · refine map_finish_sub raw _ _ env _ ?_ q hq
                  rw [rmtree_apply, map_gip_not_pfx_tmp,
                    if_neg Bool.false_ne_true]
                  exact h1
                · exact cleanup_true_sub _ _ _ hq h1
            · exact map_finish_sub raw _ _ env _ h1 q hq

/-! ## The claims -/

/-- **C2**: for every install run of either asset kind, whatever outcome
is reached, the kind's scratch extraction directory is cleared at the
start of the run if it already exists (after the prologue nothing
strictly below it survives) and nothing at or below it exists any more
when control returns to the caller. -/
theorem c2_scratch_dir_lifecycle (pathOrName : String) (skip : Bool)
    (env : InstallEnv) (fs : FSX) (hwf : wfFS fs) :
    (∀ q, isPfx model_operations.unzip_tmp_dir q = true →
        q ≠ model_operations.unzip_tmp_dir →
        prologue model_operations.unzip_tmp_dir fs q = false)
    ∧ (∀ q, isPfx model_operations.unzip_tmp_dir q = true →
        (model_operations.install pathOrName skip env fs).2 q = false)
    ∧ (∀ q, isPfx map_operations.unzip_tmp_dir q = true →
        q ≠ map_operations.unzip_tmp_dir →
        prologue map_operations.unzip_tmp_dir fs q = false)
    ∧ (∀ q, isPfx map_operations.unzip_tmp_dir q = true →
        (map_operations.install pathOrName skip env fs).2 q = false) :=
  ⟨fun q hq hne => prologue_clears _ _ hwf q hq hne,
   fun q hq => model_install_sub pathOrName skip env fs q hq,
   fun q hq hne => prologue_clears _ _ hwf q hq hne,
   fun q hq => map_install_sub pathOrName skip env fs q hq⟩

/-- **C2** witness: a concrete run of each pipeline on an empty
filesystem, whose scratch directory is gone at the end. -/
theorem c2_scratch_dir_lifecycle_witness :
    (model_operations.install "lane_net" false
      { resolveResult := none, archive := ArchiveResult.notFound,
        answers := fun _ => "", moveRaises := false }
      (fun _ => false)).2 model_operations.unzip_tmp_dir = false
    ∧ (map_operations.install "borregas_ave" false
      { resolveResult := none, archive := ArchiveResult.notFound,
        answers := fun _ => "", moveRaises := false }
      (fun _ => false)).2 map_operations.unzip_tmp_dir = false :=
  ⟨(c2_scratch_dir_lifecycle "lane_net" false
      { resolveResult := none, archive := ArchiveResult.notFound,
        answers := fun _ => "", moveRaises := false }
      (fun _ => false) (fun _ _ _ h => absurd h Bool.false_ne_true)).2.1
      model_operations.unzip_tmp_dir (isPfx_refl _),
   (c2_scratch_dir_lifecycle "borregas_ave" false
      { resolveResult := none, archive := ArchiveResult.notFound,
        answers := fun _ => "", moveRaises := false }
      (fun _ => false) (fun _ _ _ h => absurd h Bool.false_ne_true)).2.2.2
      map_operations.unzip_tmp_dir (isPfx_refl _)⟩

/-- **C3**: at process startup, registry load initializes and persists
an empty mapping when the backing file is absent, and terminates the
process when the file is present but unparsable. -/
theorem c3_registry_load :
    AssetManager.load RegFile.absent = LoadResult.loaded [] (some [])
    ∧ AssetManager.load RegFile.corrupt = LoadResult.fatalExit :=
  ⟨rfl, rfl⟩

/-- **C4**: a reference starting with `http://` or `https://` is treated
as a direct URL; when that download fails (a failed call or a result
that does not exist), resolution fails for the whole operation with the
direct URL as the only attempted download — no catalog-template and no
local-file fallback, whatever the filesystem or template contain. -/
theorem c4_direct_url_terminal (pathOrName : String)
    (tmpl : Option String) (net : String → Option String)
    (fsEx fsFile : String → Bool)
    (h : pyStartswith pathOrName "http://" = true
      ∨ pyStartswith pathOrName "https://" = true) :
    (net pathOrName = none →
      resolve_asset_path pathOrName tmpl net fsEx fsFile
        = (none, [pathOrName]))
    ∧ (∀ p, net pathOrName = some p → fsEx p = false →
      resolve_asset_path pathOrName tmpl net fsEx fsFile
        = (none, [pathOrName])) := by
  have hcond : (pyStartswith pathOrName "http://"
      || pyStartswith pathOrName "https://") = true := by
    rcases h with h | h <;> simp [h]
  constructor
  · intro hnet
    simp [resolve_asset_path, hcond, hnet]
  · intro p hp hex
    simp [resolve_asset_path, hcond, hp, hex]

/-- **C4** witness: a concrete dead URL with a configured template and a
populated filesystem still resolves to a terminal failure after the one
direct attempt. -/
theorem c4_direct_url_terminal_witness :
    resolve_asset_path "http://host/a.zip" (some "https://cdn/x")
      (fun _ => none) (fun _ => true) (fun _ => true)
      = (none, ["http://host/a.zip"]) :=
  (c4_direct_url_terminal "http://host/a.zip" (some "https://cdn/x")
    (fun _ => none) (fun _ => true) (fun _ => true)
    (Or.inl (by decide))).1 rfl

/-- **C10**: a reference that is not a URL and names an existing
filesystem path that is not a regular file resolves to failure with no
network request at all: the catalog step is skipped because the path
exists, and the final local check requires a regular file. -/
theorem c10_existing_nonfile_no_network (pathOrName : String)
    (tmpl : Option String) (net : String → Option String)
    (fsEx fsFile : String → Bool)
    (h1 : pyStartswith pathOrName "http://" = false)
    (h2 : pyStartswith pathOrName "https://" = false)
    (hex : fsEx pathOrName = true) (hfile : fsFile pathOrName = false) :
    resolve_asset_path pathOrName tmpl net fsEx fsFile = (none, []) := by
  simp [resolve_asset_path, h1, h2, hex, hfile]

/-- **C10** witness: an existing directory named `assets`, with a
catalog template configured and a network that would succeed, still
yields failure and an empty request log. -/
theorem c10_existing_nonfile_no_network_witness :
    resolve_asset_path "assets" (some "https://cdn/x")
      (fun _ => some "f") (fun s => s == "assets") (fun _ => false)
      = (none, []) :=
  c10_existing_nonfile_no_network "assets" (some "https://cdn/x")
    (fun _ => some "f") (fun s => s == "assets") (fun _ => false)
    (by decide) (by decide) (by decide) rfl

/-- **C7** counterexample: the claim says a failing
`extract(archivePath, destinationDir)` removes `destinationDir` before
reporting failure.  In the code a missing archive (`FileNotFoundError`)
makes `unzip_file` return `None` while the freshly recreated destination
directory still exists. -/
theorem c7_counterexample :
    (unzip_file ["pkg.zip"] ["tmp", "whl_hub_model_extract"]
      ArchiveResult.notFound (fun _ => false)).1 = none
    ∧ (unzip_file ["pkg.zip"] ["tmp", "whl_hub_model_extract"]
      ArchiveResult.notFound (fun _ => false)).2
        ["tmp", "whl_hub_model_extract"] = true :=
  ⟨rfl, rfl⟩

/-- **C7** amended: on every failing extraction (missing archive or
corrupt archive) `unzip_file` reports failure but leaves the destination
directory in place — recreated empty, or partially populated — instead
of removing it. -/
theorem c7_amended_dest_left_in_place (zipPath extractTo : Path)
    (fs : FSX) (entries : List (Path × Option Doc)) :
    (unzip_file zipPath extractTo ArchiveResult.notFound fs).1 = none
    ∧ (unzip_file zipPath extractTo ArchiveResult.notFound fs).2
        extractTo = true
    ∧ (unzip_file zipPath extractTo (ArchiveResult.corrupt entries) fs).1
        = none
    ∧ (unzip_file zipPath extractTo (ArchiveResult.corrupt entries) fs).2
        extractTo = true :=
  ⟨rfl, unzip_dest_true _ _ _ _, rfl, unzip_dest_true _ _ _ _⟩

/-- **C8** counterexample: the claim says a complete cached file is
reused with no re-fetch.  Concretely, with the complete file `[1,2,3]`
cached (the server's 416 answer to the ranged request at offset 3 states
exactly that it is complete), the code still issues two network requests,
deletes the cached file and returns the freshly downloaded `[9,9,9]` —
nothing is reused. -/
theorem c8_counterexample :
    download_from_url (some [1, 2, 3])
      (fun o => match o with
        | some _ => HResp.s416
        | none => HResp.okResp false [9, 9, 9])
      = (DLRet.file [9, 9, 9], some [9, 9, 9], [some 3, none])
    ∧ ([some 3, none] : List (Option Nat)) ≠ [] :=
  ⟨rfl, by decide⟩

/-- **C8** amended: whenever the derived local file already exists
(complete or not), `download_from_url` always contacts the network — the
first request is a ranged request at the current local size — and when
the server answers 416 the local file is discarded and re-downloaded
from scratch; there is no reuse path without a network request. -/
theorem c8_amended_always_refetch (c : List Nat)
    (resp : Option Nat → HResp) :
    ((download_from_url (some c) resp).2.2).head? = some (some c.length)
    ∧ ∀ st body, resp (some c.length) = HResp.s416 →
        resp none = HResp.okResp st body →
        download_from_url (some c) resp
          = (DLRet.file body, some body, [some c.length, none]) := by
  constructor
  · unfold download_from_url
    dsimp only
    cases h : resp (some c.length) with
    | s416 => dsimp only; cases h2 : resp none <;> rfl
    | okResp is206 body => dsimp only; cases is206 <;> rfl
    | errResp => rfl
  · intro st body h1 h2
    simp [download_from_url, h1, h2]

/-- **C8** witness for the amended claim at a concrete cached file and
server. -/
theorem c8_amended_always_refetch_witness :
    download_from_url (some [5, 6])
      (fun o => match o with
        | some _ => HResp.s416
        | none => HResp.okResp false [7])
      = (DLRet.file [7], some [7], [some 2, none]) :=
  (c8_amended_always_refetch [5, 6]
    (fun o => match o with
      | some _ => HResp.s416
      | none => HResp.okResp false [7])).2 false [7] rfl rfl

/-- **C5** counterexample: the claim says serialization reproduces
*every* field present in the source document.  A valid descriptor that
itself carries a `type` field parses fine, but `to_dict` overwrites that
field with the asset kind, so the source value `custom` is not
reproduced. -/
theorem c5_counterexample :
    parse_from requiredModel
      (some [("name", "a"), ("date", "d"), ("task_type", "t"),
        ("framework", "f"), ("model", "m"), ("type", "custom")])
      = some [("name", "a"), ("date", "d"), ("task_type", "t"),
        ("framework", "f"), ("model", "m"), ("type", "custom")]
    ∧ lookupA [("name", "a"), ("date", "d"), ("task_type", "t"),
        ("framework", "f"), ("model", "m"), ("type", "custom")] "type"
      = some "custom"
    ∧ lookupA (to_dict [("name", "a"), ("date", "d"), ("task_type", "t"),
        ("framework", "f"), ("model", "m"), ("type", "custom")] "model")
        "type"
      = some "model"
    ∧ (some "model" : Option String) ≠ some "custom" :=
  ⟨rfl, rfl, rfl, by decide⟩

/-- **C5** amended: for every descriptor with all required fields
present, `parse` succeeds and stores the document unchanged, and
serialization reproduces every source field *except* `type`, which is
set to the asset kind (overwriting any source value); i.e.
`serialize(parse(x))` is `x` with the derived `type` field attached. -/
theorem c5_amended_roundtrip (required : List String) (metaType : String)
    (d : Doc) (h : required.all (fun k => (lookupA d k).isSome) = true) :
    parse_from required (some d) = some d
    ∧ lookupA (to_dict d metaType) "type" = some metaType
    ∧ ∀ k, k ≠ "type" → lookupA (to_dict d metaType) k = lookupA d k := by
  refine ⟨?_, ?_, ?_⟩
  · unfold parse_from
    dsimp only
    rw [if_pos h]
  · exact lookupA_setKeyA_self d "type" metaType
  · intro k hk
    exact lookupA_setKeyA_ne d "type" k metaType hk

/-- **C5** witness: a concrete valid model descriptor with an
unrecognized extra field `x`, round-tripped. -/
theorem c5_amended_roundtrip_witness :
    parse_from requiredModel
      (some [("name", "a"), ("date", "d"), ("task_type", "t"),
        ("framework", "f"), ("model", "m"), ("x", "y")])
      = some [("name", "a"), ("date", "d"), ("task_type", "t"),
        ("framework", "f"), ("model", "m"), ("x", "y")]
    ∧ lookupA (to_dict [("name", "a"), ("date", "d"), ("task_type", "t"),
        ("framework", "f"), ("model", "m"), ("x", "y")] "model") "x"
      = lookupA [("name", "a"), ("date", "d"), ("task_type", "t"),
        ("framework", "f"), ("model", "m"), ("x", "y")] "x" :=
  ⟨(c5_amended_roundtrip requiredModel "model"
      [("name", "a"), ("date", "d"), ("task_type", "t"),
        ("framework", "f"), ("model", "m"), ("x", "y")] (by decide)).1,
   (c5_amended_roundtrip requiredModel "model"
      [("name", "a"), ("date", "d"), ("task_type", "t"),
        ("framework", "f"), ("model", "m"), ("x", "y")] (by decide)).2.2
      "x" (by decide)⟩

/-- **C6** counterexample: the claim says the persisted record for a
descriptor without `version` contains `version = "1.0.0"`.  A concrete
model install of such a descriptor succeeds, and the record it persists
has no `version` key at all (the defaulted attribute is never copied
back into the raw mapping that `to_dict` serializes). -/
theorem c6_counterexample :
    (model_operations.install "lane_net" false
      { resolveResult := some ["tmp", "whl_downloads", "lane_net.zip"],
        archive := ArchiveResult.okArch
          [(["apollo_deploy.yaml"],
            some [("name", "lane_net"), ("date", "2024-01-01"),
              ("task_type", "lane"), ("framework", "PyTorch"),
              ("model", "lnet")])],
        answers := fun _ => "y", moveRaises := false }
      (fun _ => false)).1
      = InstallOutcome.returned (some
          [("name", "lane_net"), ("date", "2024-01-01"),
            ("task_type", "lane"), ("framework", "PyTorch"),
            ("model", "lnet"), ("type", "model"),
            ("install_path",
              "/apollo/modules/perception/data/models/lane_net_torch")])
    ∧ lookupA [("name", "lane_net"), ("date", "2024-01-01"),
        ("task_type", "lane"), ("framework", "PyTorch"),
        ("model", "lnet"), ("type", "model"),
        ("install_path",
          "/apollo/modules/perception/data/models/lane_net_torch")]
        "version" = none :=
  ⟨rfl, rfl⟩

/-- **C6** amended: for a valid descriptor that omits `version`, parsing
succeeds and the metadata object's `version` attribute defaults to
`"1.0.0"`, but the record built for the registry (raw fields plus `type`
and `install_path`) contains no `version` key. -/
theorem c6_amended_version_default (d : Doc) (s : String)
    (hreq : requiredModel.all (fun k => (lookupA d k).isSome) = true)
    (hv : lookupA d "version" = none) :
    parse_from requiredModel (some d) = some d
    ∧ attrValue optionalModel d "version" = some "1.0.0"
    ∧ lookupA (mkRecord d "model" s) "version" = none := by
  refine ⟨?_, ?_, ?_⟩
  · unfold parse_from
    dsimp only
    rw [if_pos hreq]
  · unfold attrValue
    rw [hv]
    rfl
  · show lookupA (setKeyA (setKeyA d "type" "model") "install_path" s)
      "version" = none
    rw [lookupA_setKeyA_ne _ _ _ _ (by decide),
      lookupA_setKeyA_ne _ _ _ _ (by decide), hv]

/-- **C6** witness for the amended claim at a concrete version-less
descriptor. -/
theorem c6_amended_version_default_witness :
    attrValue optionalModel
      [("name", "a"), ("date", "d"), ("task_type", "t"),
        ("framework", "f"), ("model", "m")] "version" = some "1.0.0"
    ∧ lookupA (mkRecord
        [("name", "a"), ("date", "d"), ("task_type", "t"),
          ("framework", "f"), ("model", "m")] "model" "/apollo/p")
        "version" = none :=
  ⟨(c6_amended_version_default
      [("name", "a"), ("date", "d"), ("task_type", "t"),
        ("framework", "f"), ("model", "m")] "/apollo/p"
      (by decide) rfl).2.1,
   (c6_amended_version_default
      [("name", "a"), ("date", "d"), ("task_type", "t"),
        ("framework", "f"), ("model", "m")] "/apollo/p"
      (by decide) rfl).2.2⟩

/-- **C9**: removing a registered asset whose recorded `install_path`
no longer exists on disk succeeds as an idempotent already-removed
outcome — for any answer stream, so no interactive confirmation is
consulted — and the registry entry is deleted and the registry is
persisted again, with the filesystem untouched. -/
theorem c9_remove_idempotent (assetName : String) (reg : Registry)
    (md : Doc) (ans : Nat → String) (rmtreeOk : Bool) (fs : FSX)
    (s : String) (hreg : lookupA reg assetName = some md)
    (hty : lookupA md "type" = some "model"
      ∨ lookupA md "type" = some "map")
    (hip : lookupA md "install_path" = some s) (hs : s ≠ "")
    (hfs : fs (pathOfString s) = false) :
    AssetManager.remove assetName reg ans rmtreeOk fs
      = (eraseA reg assetName, true, fs) := by
  rcases hty with h | h <;>
    simp [AssetManager.remove, hreg, h, model_operations.remove,
      map_operations.remove, hip, hs, hfs]

/-- The prologue and extraction only touch the scratch subtree and its
ancestors, so at the conflict check the install path is seen exactly as
the caller's filesystem has it. -/
theorem model_check_fs (a : Path) (ents : List (Path × Option Doc))
    (fs : FSX) (nm fw : String) :
    (unzip_file a model_operations.unzip_tmp_dir
      (ArchiveResult.okArch ents)
      (prologue model_operations.unzip_tmp_dir fs)).2
      (model_operations.get_install_path nm fw)
    = fs (model_operations.get_install_path nm fw) := by
  have hA : isPfx model_operations.unzip_tmp_dir
      (model_operations.get_install_path nm fw) = false :=
    model_gip_not_pfx_tmp nm fw
  have hB : isPfx (model_operations.get_install_path nm fw)
      model_operations.unzip_tmp_dir = false :=
    isPfx_head_ne (by decide) _ _
  unfold unzip_file
  dsimp only
  rw [addFiles_not_created _ ents _ _
      (fun e _ => isPfx_head_ne (by decide) _ _),
    if_pos (prologue_self _ fs), mkdirP_apply, hB,
    if_neg Bool.false_ne_true, rmtree_apply, hA,
    if_neg Bool.false_ne_true]
  unfold prologue
  rw [mkdirP_apply, hB, if_neg Bool.false_ne_true]
  cases hft : fs model_operations.unzip_tmp_dir with
  | true => rw [if_pos rfl, rmtree_apply, hA, if_neg Bool.false_ne_true]
  | false => rw [if_neg Bool.false_ne_true]

/-- Evaluation of a model install run that reaches the conflict check
and is then skipped or declined: the returned value is the bare `None`. -/
theorem model_install_conflict_none (pn : String) (skip : Bool)
    (env : InstallEnv) (fs : FSX) (a : Path)
    (ents : List (Path × Option Doc)) (me : Path × Option Doc) (raw : Doc)
    (h1 : env.resolveResult = some a)
    (h2 : env.archive = ArchiveResult.okArch ents)
    (h3 : model_operations.find_meta_file ents = some me)
    (h4 : parse_from requiredModel me.2 = some raw)
    (hip : fs (model_operations.get_install_path
      ((attrValue optionalModel raw "name").getD "")
      ((attrValue optionalModel raw "framework").getD "")) = true)
    (habort : skip = true ∨ user_confirmation env.answers = false) :
    (model_operations.install pn skip env fs).1
      = InstallOutcome.returned none := by
  unfold model_operations.install model_operations.installCore
  rw [h1]
  dsimp only
  rw [h2]
  dsimp only
  rw [h3]
  dsimp only
  rw [h4]
  dsimp only
  rw [model_check_fs, hip, if_pos rfl]
  rcases habort with h | h
  · subst h
    rw [if_pos rfl]
  · cases skip with
    | true => rw [if_pos rfl]
    | false =>
      rw [if_neg (by decide : ¬(false = true)), h,
        if_neg Bool.false_ne_true]

/-- A valid model descriptor used in the C1 scenarios. -/
def c1Doc : Doc :=
  [("name", "lane_net"), ("date", "2024-01-01"), ("task_type", "lane"),
    ("framework", "PyTorch"), ("model", "lnet")]

/-- C1 scenario: a run that succeeds all the way to the conflict check
(the user answers "n" whenever asked). -/
def c1EnvConflict : InstallEnv :=
  { resolveResult := some ["tmp", "whl_downloads", "lane_net.zip"],
    archive := ArchiveResult.okArch [(["apollo_deploy.yaml"], some c1Doc)],
    answers := fun _ => "n", moveRaises := false }

/-- C1 scenario: the filesystem on which `lane_net`'s install path
already exists. -/
def c1Fs : FSX :=
  fun q => q == ["apollo", "modules", "perception", "data", "models",
    "lane_net_torch"]

/-- C1 scenario: a run whose asset resolution fails outright
(`AssetNotFound` / `TransportFailure`). -/
def c1EnvFail : InstallEnv :=
  { resolveResult := none, archive := ArchiveResult.notFound,
    answers := fun _ => "n", moveRaises := false }

/-- **C1** counterexample: the claim says an `ABORTED` install returns a
tagged outcome that lets the caller tell skip/user-declined apart from
genuine failures.  In the code every aborted run returns the same bare
`None`: a concrete skip-on-conflict run, a concrete user-declined run
and a concrete resolution-failure run produce identical values, so no
tag distinguishes them. -/
theorem c1_counterexample :
    (model_operations.install "lane_net" true c1EnvConflict c1Fs).1
      = InstallOutcome.returned none
    ∧ (model_operations.install "lane_net" false c1EnvConflict c1Fs).1
      = InstallOutcome.returned none
    ∧ (model_operations.install "nosuch" false c1EnvFail
        (fun _ => false)).1 = InstallOutcome.returned none
    ∧ (model_operations.install "lane_net" true c1EnvConflict c1Fs).1
      = (model_operations.install "nosuch" false c1EnvFail
        (fun _ => false)).1 :=
  ⟨rfl, rfl, rfl, rfl⟩

/-- **C1** amended: every `ABORTED` install — skip-on-conflict,
user-declined, or genuine failure (here: failed resolution) — returns
the *same* untagged `None`; the caller cannot distinguish them, and it
persists a registry record only when an actual record (the `DONE`
outcome) comes back: on `None` the registry is unchanged and not
re-saved. -/
theorem c1_amended_untagged_outcome (pn : String) (e1 : InstallEnv)
    (fs1 : FSX) (a : Path) (ents : List (Path × Option Doc))
    (me : Path × Option Doc) (raw : Doc) (e2 : InstallEnv) (fs2 : FSX)
    (h1 : e1.resolveResult = some a)
    (h2 : e1.archive = ArchiveResult.okArch ents)
    (h3 : model_operations.find_meta_file ents = some me)
    (h4 : parse_from requiredModel me.2 = some raw)
    (hip : fs1 (model_operations.get_install_path
      ((attrValue optionalModel raw "name").getD "")
      ((attrValue optionalModel raw "framework").getD "")) = true)
    (hdecl : user_confirmation e1.answers = false)
    (h5 : e2.resolveResult = none) :
    (model_operations.install pn true e1 fs1).1
      = InstallOutcome.returned none
    ∧ (model_operations.install pn false e1 fs1).1
      = InstallOutcome.returned none
    ∧ (∀ s, (model_operations.install pn s e2 fs2).1
      = InstallOutcome.returned none)
    ∧ (∀ s reg, (AssetManager.install pn "model" s e2 fs2 reg).1 = reg
      ∧ (AssetManager.install pn "model" s e2 fs2 reg).2.1 = false)
    ∧ (∀ reg, (AssetManager.install pn "model" true e1 fs1 reg).1 = reg
      ∧ (AssetManager.install pn "model" true e1 fs1 reg).2.1
        = false) := by
  have hskip := model_install_conflict_none pn true e1 fs1 a ents me raw
    h1 h2 h3 h4 hip (Or.inl rfl)
  have hdec := model_install_conflict_none pn false e1 fs1 a ents me raw
    h1 h2 h3 h4 hip (Or.inr hdecl)
  have hfail : ∀ s, (model_operations.install pn s e2 fs2).1
      = InstallOutcome.returned none := by
    intro s
    unfold model_operations.install model_operations.installCore
    rw [h5]
  refine ⟨hskip, hdec, hfail, fun s reg => ?_, fun reg => ?_⟩
  · unfold AssetManager.install
    rw [if_pos rfl]
    unfold AssetManager.handleInstall
    rw [hfail s]
    exact ⟨rfl, rfl⟩
  · unfold AssetManager.install
    rw [if_pos rfl]
    unfold AssetManager.handleInstall
    rw [hskip]
    exact ⟨rfl, rfl⟩

/-- **C1** witness for the amended claim, at the concrete C1
scenarios. -/
theorem c1_amended_untagged_outcome_witness :
    (model_operations.install "lane_net" true c1EnvConflict c1Fs).1
      = InstallOutcome.returned none
    ∧ (model_operations.install "lane_net" false c1EnvConflict c1Fs).1
      = InstallOutcome.returned none
    ∧ (model_operations.install "lane_net" false c1EnvFail
        (fun _ => false)).1 = InstallOutcome.returned none
    ∧ (AssetManager.install "lane_net" "model" false c1EnvFail
        (fun _ => false) []).1 = [] :=
  ⟨(c1_amended_untagged_outcome "lane_net" c1EnvConflict c1Fs _ _ _ _
      c1EnvFail (fun _ => false) rfl rfl rfl rfl rfl rfl rfl).1,
   (c1_amended_untagged_outcome "lane_net" c1EnvConflict c1Fs _ _ _ _
      c1EnvFail (fun _ => false) rfl rfl rfl rfl rfl rfl rfl).2.1,
   (c1_amended_untagged_outcome "lane_net" c1EnvConflict c1Fs _ _ _ _
      c1EnvFail (fun _ => false) rfl rfl rfl rfl rfl rfl rfl).2.2.1 false,
   ((c1_amended_untagged_outcome "lane_net" c1EnvConflict c1Fs _ _ _ _
      c1EnvFail (fun _ => false) rfl rfl rfl rfl rfl rfl rfl).2.2.2.1
      false []).1⟩

/-- **C9** witness: a concrete registry with one model record whose
install path is absent from an empty filesystem. -/
theorem c9_remove_idempotent_witness :
    AssetManager.remove "lane_net"
      [("lane_net", [("type", "model"), ("install_path", "/apollo/x")])]
      (fun _ => "") true (fun _ => false)
      = (eraseA [("lane_net",
          [("type", "model"), ("install_path", "/apollo/x")])] "lane_net",
        true, fun _ => false) :=
  c9_remove_idempotent "lane_net"
    [("lane_net", [("type", "model"), ("install_path", "/apollo/x")])]
    [("type", "model"), ("install_path", "/apollo/x")]
    (fun _ => "") true (fun _ => false) "/apollo/x" rfl (Or.inl rfl) rfl
    (by decide) rfl

end WhlHub
